import Mathlib

/-!
# TurtleTracker retrieval pipeline — shallow embedding

This file embeds the VLAD+FAISS retrieval pipeline of the TurtleTracker
backend (`backend/turtles/image_processing.py` and
`backend/turtle_manager.py`) and proves the specification claims about it.

Modelling conventions:
* Machine floats are modelled by `ℚ` where the code only moves values
  around, and by `ℝ` where it takes square roots (the VLAD signed-square-root
  transform and L2 normalization).
* External library calls whose numeric output the claims do not depend on
  (OpenCV feature extraction, the MiniBatchKMeans optimizer, the FAISS
  nearest-neighbour scan, the random subsampling of descriptor rows) are
  modelled as explicit oracle parameters, so each embedded function is a
  pure function of its inputs and those oracles.
* File-system state touched by the index rebuild is an explicit `Disk`
  record of the four persisted artifacts.
-/

namespace TurtleTracker

/-! ## Data model -/

/-- One row of the persisted metadata list (`final_meta` entries built by
`rebuild_faiss_index_from_folders`). -/
structure Meta where
  filename : String
  file_path : String
  site_id : String
  location : String
  state : String
deriving DecidableEq, Repr, Inhabited

/-- One search-result record as built by `smart_search` and decorated by
`rerank_results_with_spatial_verification` / `search_for_matches`.
`spatial_score = none` models the dictionary key being absent; the code
always reads it with `.get('spatial_score', 0)`. -/
structure SResult where
  filename : String
  file_path : String
  site_id : String
  location : String
  distance : ℚ
  spatial_score : Option ℕ := none
  is_mirrored : Bool := false
deriving DecidableEq, Repr, Inhabited

/-- One FAISS hit: a distance paired with the row index it came from
(`-1` models FAISS's padding value for missing neighbours). -/
structure Hit where
  dist : ℚ
  idx : ℤ
deriving DecidableEq, Repr, Inhabited

/-- The persisted MiniBatchKMeans object.  `cluster_centers_ = none`
models the `cluster_centers_` attribute being absent (an unfitted model,
`hasattr` fails); `some cs` models a fitted model with centers `cs`. -/
structure KM where
  cluster_centers_ : Option (List (List ℚ))
deriving DecidableEq, Repr, Inhabited

/-- The in-memory FAISS index used by `smart_search`: its stored-vector
count `ntotal`, and the `index.search` call as an oracle from the query
vector and requested neighbour count to the returned hit list. -/
structure FaissIndex where
  ntotal : ℕ
  searchFn : List ℚ → ℕ → List Hit

/-! ## smart_search (`image_processing.py`) -/

/-- Python truthiness of the `location_filter` argument: `None` and the
empty string are falsy, every other string is truthy. -/
def lfActive : Option String → Bool
  | none => false
  | some s => !(s == "")

/-- The per-entry location filter of `smart_search`: when a truthy filter
is set, keep an entry iff its `state` or its `location` equals the filter
(`if state_val != location_filter and loc_val != location_filter: continue`). -/
def passesFilter (lf : Option String) (m : Meta) : Bool :=
  if lfActive lf then (m.state == lf.getD "") || (m.location == lf.getD "")
  else true

/-- The result record appended for one accepted hit (the dict literal of
the `results.append` call). -/
def newRes (metadata : List Meta) (h : Hit) : SResult :=
  { filename := (metadata.getD h.idx.toNat default).filename,
    file_path := (metadata.getD h.idx.toNat default).file_path,
    site_id := (metadata.getD h.idx.toNat default).site_id,
    location := (metadata.getD h.idx.toNat default).location,
    distance := h.dist }

/-- The body of `smart_search`'s result loop: walk the FAISS hits in
order, skip out-of-range indices (`continue`), skip filtered-out entries
(`continue`), record the first occurrence of each `site_id` into
`seen_sites`/`results`, and stop once `k_results` results have been
collected (the `break` is checked at the end of each non-skipped
iteration). -/
def searchLoop (metadata : List Meta) (lf : Option String) (k_results : ℕ) :
    List Hit → List String → List SResult → List SResult
  | [], _, acc => acc
  | h :: rest, seen, acc =>
    if h.idx < 0 || (metadata.length : ℤ) ≤ h.idx then
      searchLoop metadata lf k_results rest seen acc
    else if !(passesFilter lf (metadata.getD h.idx.toNat default)) then
      searchLoop metadata lf k_results rest seen acc
    else if (metadata.getD h.idx.toNat default).site_id ∈ seen then
      if k_results ≤ acc.length then acc
      else searchLoop metadata lf k_results rest seen acc
    else
      if k_results ≤ (acc ++ [newRes metadata h]).length then acc ++ [newRes metadata h]
      else searchLoop metadata lf k_results rest
        ((metadata.getD h.idx.toNat default).site_id :: seen)
        (acc ++ [newRes metadata h])

/-- `smart_search`, instrumented: besides the result list it reports
whether query encoding (`process_new_image`, i.e. feature extraction) ran
and whether the FAISS nearest-neighbour search ran.  `encoded` is the
oracle outcome of `process_new_image` (`none` = no usable query vector). -/
def smart_searchRun (vocab : Option KM) (index : Option FaissIndex)
    (metadata : List Meta) (encoded : Option (List ℚ))
    (location_filter : Option String) (k_results : ℕ) :
    List SResult × Bool × Bool :=
  match vocab, index with
  | none, _ => ([], false, false)
  | _, none => ([], false, false)
  | some vocab, some index =>
    match vocab.cluster_centers_ with
    | none => ([], false, false)
    | some centers =>
      if (centers.map List.length).sum = 0 then ([], false, false)
      else if index.ntotal = 0 then ([], false, false)
      else
        match encoded with
        | none => ([], true, false)
        | some qv =>
          let search_k := if lfActive location_filter then k_results * 10
                          else k_results * 5
          let hits := index.searchFn qv search_k
          (searchLoop metadata location_filter k_results hits [] [], true, true)

/-- `smart_search`: the result list of the instrumented run. -/
def smart_search (vocab : Option KM) (index : Option FaissIndex)
    (metadata : List Meta) (encoded : Option (List ℚ))
    (location_filter : Option String) (k_results : ℕ) : List SResult :=
  (smart_searchRun vocab index metadata encoded location_filter k_results).1

/-! ## Spatial verification re-rank (`rerank_results_with_spatial_verification`) -/

/-- The per-candidate outcome of loading a candidate's persisted features
and matching them against the query, abstracting the OpenCV calls:
* `missing`: no `file_path` or the file does not exist (`continue`);
* `loadFail`: `SIFT_from_file` yielded no descriptors (`continue`);
* `fewTrain`: fewer than 2 candidate descriptors, so `knnMatch` with `k=2`
  is impossible (score 0, candidate kept);
* `matched nGood mask`: the ratio test left `nGood` good matches, and —
  were homography estimation invoked — `cv.findHomography` would return
  the inlier mask `mask` (`none` modelling a `None` mask);
* `raised`: an exception was caught for this candidate (candidate dropped). -/
inductive CandInfo where
  | missing
  | loadFail
  | fewTrain
  | matched (nGood : ℕ) (mask : Option (List Bool))
  | raised
deriving DecidableEq, Repr

/-- The inlier-count computation for one candidate, instrumented: the
first component is the spatial score (`inliers = 0`; homography only when
`len(good) >= 4`; then `int(np.sum(mask))` if the mask is not `None`), the
second reports whether `cv.findHomography` was invoked at all. -/
def candidateScoreRun (nGood : ℕ) (mask : Option (List Bool)) : ℕ × Bool :=
  if 4 ≤ nGood then
    (match mask with
     | some m => (m.filter id).length
     | none => 0, true)
  else (0, false)

/-- Set a candidate's `spatial_score` key (`res['spatial_score'] = ...`). -/
def setScore (r : SResult) (s : ℕ) : SResult := { r with spatial_score := some s }

/-- `res.get('spatial_score', 0)`. -/
def getScore (r : SResult) : ℕ := r.spatial_score.getD 0

/-- Process one candidate of the re-rank loop: dropped, or kept with its
spatial score filled in. -/
def applyInfo (info : SResult → CandInfo) (r : SResult) : Option SResult :=
  match info r with
  | .missing => none
  | .loadFail => none
  | .raised => none
  | .fewTrain => some (setScore r 0)
  | .matched nGood mask => some (setScore r (candidateScoreRun nGood mask).1)

/-- The comparison used to model
`verified_results.sort(key=lambda x: x.get('spatial_score', 0), reverse=True)`:
a stable sort that puts higher spatial scores first. -/
def scoreLe (a b : SResult) : Bool := decide (getScore b ≤ getScore a)

/-- `rerank_results_with_spatial_verification`.  `queryOk` is the oracle
outcome of re-extracting the query's features (`des_query is None` → the
initial list is returned unchanged); `info` is the per-candidate oracle. -/
def rerank_results_with_spatial_verification (info : SResult → CandInfo)
    (queryOk : Bool) (initial_results : List SResult) : List SResult :=
  if initial_results.isEmpty then []
  else if !queryOk then initial_results
  else (initial_results.filterMap (applyInfo info)).mergeSort scoreLe

/-- Sorted by spatial score, in descending order. -/
def SortedDesc (l : List SResult) : Prop :=
  l.Pairwise (fun a b => getScore b ≤ getScore a)

/-! ## search_for_matches (`turtle_manager.py`) -/

/-- `results[0].get('spatial_score', 0)` guarded by `if results:` —
the score the code compares against the confidence threshold. -/
def bestScore : List SResult → ℕ
  | [] => 0
  | r :: _ => getScore r

/-- The largest spatial score in a result list (0 when empty): the "best
spatial score" of a pass.  For the sorted lists produced by the re-rank
this coincides with `bestScore`. -/
def maxScore (l : List SResult) : ℕ := l.foldr (fun r m => max (getScore r) m) 0

/-- `res['is_mirrored'] = True`. -/
def tagMirrored (r : SResult) : SResult := { r with is_mirrored := true }

def MATCH_CONFIDENCE_THRESHOLD : ℕ := 15

/-- The candidate-retrieval step of `search_for_matches` for one
orientation: run `smart_search` with the location filter, and if a truthy
filter yielded no candidates, retry unfiltered
(`if location_filter and not candidates: candidates = smart_search(..., None, ...)`).
`ss` is the search closure with every argument but the filter fixed. -/
def searchPass (ss : Option String → List SResult) (location_filter : Option String) :
    List SResult :=
  let candidates := ss location_filter
  if lfActive location_filter && candidates.isEmpty then ss none else candidates

/-- The decision logic of `search_for_matches`, starting from the
re-ranked normal-orientation results.  `mirrorPass = none` models
`cv.imread` failing on the query image (no mirrored pass possible);
`mirrorPass = some rm` models the re-ranked results of the mirrored pass.
The mirrored pass is consulted only below the confidence threshold. -/
def search_for_matches (results_normal : List SResult)
    (mirrorPass : Option (List SResult)) : List SResult :=
  let best_score_normal := bestScore results_normal
  if MATCH_CONFIDENCE_THRESHOLD ≤ best_score_normal then
    results_normal.take 5
  else
    match mirrorPass with
    | none => results_normal.take 5
    | some results_mirror =>
      let best_score_mirror := bestScore results_mirror
      if best_score_normal < best_score_mirror then
        (results_mirror.map tagMirrored).take 5
      else
        results_normal.take 5

/-! ## VLAD encoding (`compute_vlad`) -/

/-- Squared Euclidean distance between two descriptor rows. -/
def sqDistQ (a b : List ℚ) : ℚ := (a.zipWith (fun x y => (x - y) ^ 2) b).sum

/-- First index of the minimum in a distance list (running state:
remaining list, next index, best index so far, best value so far). -/
def argminAux : List ℚ → ℕ → ℕ → ℚ → ℕ
  | [], _, best, _ => best
  | d :: rest, i, best, bestv =>
    if d < bestv then argminAux rest (i + 1) i d
    else argminAux rest (i + 1) best bestv

/-- `kmeans.predict` on a single row: index of the nearest cluster center
(first one, on ties). -/
def predictIdx (centers : List (List ℚ)) (x : List ℚ) : ℕ :=
  match centers.map (sqDistQ x) with
  | [] => 0
  | d :: ds => argminAux ds 1 0 d

/-- Component-wise difference of two rows (`descriptor - center`). -/
def vsub (a b : List ℚ) : List ℚ := a.zipWith (· - ·) b

/-- Component-wise sum of a list of rows, starting from a zero row of
width `dim` (`np.sum(..., axis=0)` into a `np.zeros` accumulator). -/
def sumVecs (dim : ℕ) (l : List (List ℚ)) : List ℚ :=
  l.foldl (fun acc v => acc.zipWith (· + ·) v) (List.replicate dim 0)

/-- Row `i` of the VLAD accumulator: the summed residuals of the
descriptors assigned to center `i`, or a zero row if none are
(`if np.sum(assignments == i) > 0`). -/
def vladRow (descriptors centers : List (List ℚ)) (dim i : ℕ) : List ℚ :=
  if (descriptors.filter (fun d => predictIdx centers d = i)).isEmpty then
    List.replicate dim 0
  else
    sumVecs dim ((descriptors.filter (fun d => predictIdx centers d = i)).map
      (fun d => vsub d (centers.getD i [])))

/-- The flattened VLAD accumulator (`vlad.flatten()`), before the
signed-square-root transform: `num_clusters` rows of width
`descriptors.shape[1]`, concatenated. -/
def rawVlad (descriptors centers : List (List ℚ)) : List ℚ :=
  let dim := (descriptors.headD []).length
  ((List.range centers.length).map (vladRow descriptors centers dim)).flatten

/-- `np.sign(x) * np.sqrt(np.abs(x))` on one entry. -/
noncomputable def ssr (x : ℚ) : ℝ :=
  (if 0 < x then 1 else if x < 0 then -1 else 0) * Real.sqrt |(x : ℝ)|

/-- Euclidean norm of a real vector (`np.linalg.norm`). -/
noncomputable def l2normR (l : List ℝ) : ℝ := Real.sqrt ((l.map (fun x => x ^ 2)).sum)

/-- `compute_vlad`: accumulate residuals per assigned center, flatten,
signed square root, then divide by the norm plus `1e-7`. -/
noncomputable def compute_vlad (descriptors : List (List ℚ)) (kmeans : KM) : List ℝ :=
  let centers := kmeans.cluster_centers_.getD []
  let u := (rawVlad descriptors centers).map ssr
  u.map (fun x => x / (l2normR u + 1e-7))

/-! ## Index rebuild (`rebuild_faiss_index_from_folders`) -/

/-- State of one persisted artifact: absent, present but unreadable
(`joblib.load` / `np.load` raises), or present with a value. -/
inductive FileState (α : Type) where
  | absent
  | corrupt
  | good (a : α)
deriving DecidableEq, Repr

/-- The serialized FAISS index artifact: an `IndexFlatL2` holding the
added vector matrix.  Doc: models `initialize_faiss_index` + `write_index`. -/
structure FaissFile where
  vectors : List (List ℝ)

/-- The four persisted artifacts rebuilt by
`rebuild_faiss_index_from_folders`: vocabulary (`vlad_vocab.pkl`), index
(`turtles.index`), metadata (`metadata.pkl`) and the raw vector matrix
(`global_vlad_array.npy`). -/
structure Disk where
  vocabF : FileState KM
  indexF : FileState FaissFile
  metaF : FileState (List Meta)
  vladF : FileState (List (List ℝ))

/-- One walked `.npz` sidecar file, after the missing-sidecar
regeneration step: its base filename, its on-disk path — carried as the
`path.split(os.sep)` component list, from which the path string is
recovered by re-joining with the separator — and its `descriptors` entry
(`none` = the load raises or the key is absent). -/
structure Npz where
  filename : String
  path_parts : List String
  descriptors : Option (List (List ℚ))
deriving DecidableEq, Repr

/-- The path string of a walked file (`os.sep.join` of its components,
the inverse of the `path.split(os.sep)` the rebuild loop performs). -/
def npzPath (n : Npz) : String := String.intercalate "/" n.path_parts

/-- Python list indexing with negative-index wraparound; `none` models an
`IndexError` (caught by the enclosing `except: pass`). -/
def pyIndex (l : List String) (i : ℤ) : Option String :=
  if 0 ≤ i then l.get? i.toNat
  else if (-i).toNat ≤ l.length then l.get? (l.length - (-i).toNat) else none

/-- Positional path parsing of the rebuild loop: locate `ref_data` in the
path parts; the turtle id, location and state are the one, two and three
components above it (state falling back to the location when the path is
too shallow); paths without `ref_data` get `"Unknown"` everywhere. -/
def parseMeta (parts : List String) : Option (String × String × String) :=
  if "ref_data" ∈ parts then
    let idx : ℤ := (parts.indexOf "ref_data" : ℕ)
    match pyIndex parts (idx - 1), pyIndex parts (idx - 2) with
    | some tid, some loc =>
      if 3 ≤ idx then
        match pyIndex parts (idx - 3) with
        | some st => some (tid, loc, st)
        | none => none
      else some (tid, loc, loc)
    | _, _ => none
  else some ("Unknown", "Unknown", "Unknown")

/-- The metadata row recorded for one `.npz` file. -/
def metaOf (n : Npz) (tls : String × String × String) : Meta :=
  { filename := n.filename, file_path := npzPath n,
    site_id := tls.1, location := tls.2.1, state := tls.2.2 }

/-- The 15000-row safety cap of the rebuild loop, with the random
subsample modelled by the oracle `sub15`. -/
def cap15 (sub15 : List (List ℚ) → List (List ℚ)) (d : List (List ℚ)) :
    List (List ℚ) :=
  if 15000 < d.length then sub15 d else d

/-- The index-generation loop of the rebuild: for every loadable `.npz`
with a parseable path and a non-empty (capped) descriptor set, one VLAD
row paired with its metadata row, appended in the same iteration. -/
noncomputable def buildRows (kmeans : KM) (corpus : List Npz)
    (sub15 : List (List ℚ) → List (List ℚ)) : List (List ℝ × Meta) :=
  corpus.filterMap fun n =>
    match parseMeta n.path_parts with
    | none => none
    | some tls =>
      match n.descriptors with
      | none => none
      | some d =>
        let des := cap15 sub15 d
        if des.isEmpty then none
        else some (compute_vlad des kmeans, metaOf n tls)

/-- Loading the persisted vocabulary at the start of the rebuild:
`None` when the file is absent, unreadable, or lacks `cluster_centers_`. -/
def loadVocab : FileState KM → Option KM
  | .absent => none
  | .corrupt => none
  | .good km =>
    match km.cluster_centers_ with
    | none => none
    | some _ => some km

/-- The descriptor batches fed to the vocabulary training loop: one entry
per loadable `.npz` (capped at 10000 rows via the subsample oracle
`sub10`).  `vocab_was_fitted` is true iff this list is non-empty. -/
def trainBatches (corpus : List Npz)
    (sub10 : List (List ℚ) → List (List ℚ)) : List (List (List ℚ)) :=
  corpus.filterMap fun n =>
    match n.descriptors with
    | none => none
    | some des => some (if 10000 < des.length then sub10 des else des)

/-- `initialize_faiss_index`: build an `IndexFlatL2` over the vector
matrix and add all rows. -/
def init_faiss_index (vlad_matrix : List (List ℝ)) : FaissFile := ⟨vlad_matrix⟩

/-- `rebuild_faiss_index_from_folders`, as a function of the artifact
state on disk and the walked `.npz` corpus (the step-1 regeneration of
missing sidecars is what produced `corpus`).  `trainOracle` abstracts the
MiniBatchKMeans optimizer: the cluster centers resulting from the
sequence of `partial_fit` calls on the given batches.  Returns the new
disk state and the function's return value (the vocabulary, or `None`). -/
noncomputable def rebuild_faiss_index_from_folders (disk : Disk) (corpus : List Npz)
    (trainOracle : List (List (List ℚ)) → List (List ℚ))
    (sub10 sub15 : List (List ℚ) → List (List ℚ)) : Disk × Option KM :=
  -- 2. Train vocab (or reuse the persisted one when it loads and is fitted)
  let step2 : FileState KM × Option KM :=
    match loadVocab disk.vocabF with
    | some km => (disk.vocabF, some km)
    | none =>
      let batches := trainBatches corpus sub10
      if batches.isEmpty then (disk.vocabF, none)
      else
        let km : KM := ⟨some (trainOracle batches)⟩
        (FileState.good km, some km)
  -- 3. Build index (only if we have a fitted vocab)
  match step2.2 with
  | none => ({ disk with vocabF := step2.1 }, none)
  | some km =>
    let rows := buildRows km corpus sub15
    if rows.isEmpty then ({ disk with vocabF := step2.1 }, none)
    else
      let vlad_arr := rows.map Prod.fst
      ({ vocabF := step2.1,
         vladF := FileState.good vlad_arr,
         metaF := FileState.good (rows.map Prod.snd),
         indexF := FileState.good (init_faiss_index vlad_arr) }, some km)

/-! ## Helper lemmas -/

theorem maxScore_le (l : List SResult) (b : ℕ) (h : ∀ r ∈ l, getScore r ≤ b) :
    maxScore l ≤ b := by
  induction l with
  | nil => simp [maxScore]
  | cons x t ih =>
    simp only [maxScore, List.foldr_cons] at *
    exact max_le (h x (by simp)) (ih fun r hr => h r (by simp [hr]))

theorem bestScore_eq_maxScore (l : List SResult) (h : SortedDesc l) :
    bestScore l = maxScore l := by
  cases l with
  | nil => rfl
  | cons r t =>
    have ht : ∀ x ∈ t, getScore x ≤ getScore r :=
      fun x hx => (List.pairwise_cons.mp h).1 x hx
    have hm : maxScore t ≤ getScore r := maxScore_le t _ ht
    show getScore r = max (getScore r) (maxScore t)
    rw [max_eq_left hm]

theorem take5_len_le (l : List SResult) : (l.take 5).length ≤ 5 := by
  simp [List.length_take]

theorem search_for_matches_len_le (rn : List SResult) (m : Option (List SResult)) :
    (search_for_matches rn m).length ≤ 5 := by
  cases m with
  | none =>
    simp only [search_for_matches]
    split <;> exact take5_len_le rn
  | some rm =>
    simp only [search_for_matches]
    split
    · exact take5_len_le rn
    · split
      · exact take5_len_le _
      · exact take5_len_le rn

/-! ## Claim theorems -/

/-- C1: when the best spatial score of the normal pass reaches the
confidence threshold of 15 inliers, `search_for_matches` returns the top
5 normal results without consulting any mirrored pass; when it is below
the threshold, the mirrored pass is run and the pass with the strictly
higher best score wins (at most 5 results), with every result returned
from the winning mirrored pass tagged `is_mirrored`. -/
theorem c1_mirror_fallback (rn rm : List SResult)
    (hrn : SortedDesc rn) (hrm : SortedDesc rm) :
    (MATCH_CONFIDENCE_THRESHOLD ≤ maxScore rn →
      ∀ m, search_for_matches rn m = rn.take 5) ∧
    (maxScore rn < MATCH_CONFIDENCE_THRESHOLD →
      (maxScore rn < maxScore rm →
        search_for_matches rn (some rm) = (rm.map tagMirrored).take 5 ∧
        ∀ r ∈ search_for_matches rn (some rm), r.is_mirrored = true) ∧
      (maxScore rm ≤ maxScore rn →
        search_for_matches rn (some rm) = rn.take 5)) ∧
    (∀ m, (search_for_matches rn m).length ≤ 5) := by
  have en := bestScore_eq_maxScore rn hrn
  have em := bestScore_eq_maxScore rm hrm
  refine ⟨fun hhi m => ?_, fun hlo => ⟨fun hgt => ⟨?_, ?_⟩, fun hle => ?_⟩, fun m => ?_⟩
  · simp [search_for_matches, en, hhi]
  · simp [search_for_matches, en, em, Nat.not_le.mpr hlo, hgt]
  · intro r hr
    have : search_for_matches rn (some rm) = (rm.map tagMirrored).take 5 := by
      simp [search_for_matches, en, em, Nat.not_le.mpr hlo, hgt]
    rw [this] at hr
    obtain ⟨x, _, rfl⟩ := List.mem_map.mp (List.mem_of_mem_take hr)
    rfl
  · simp [search_for_matches, en, em, Nat.not_le.mpr hlo, Nat.not_lt.mpr hle]
  · exact search_for_matches_len_le rn m

/-- C1 witness: a normal pass whose best score is 20 is returned as-is
regardless of the mirrored pass. -/
theorem c1_mirror_fallback_witness :
    let rn : List SResult := [{ filename := "a", file_path := "p", site_id := "T1",
                                location := "L", distance := 1, spatial_score := some 20 }]
    (MATCH_CONFIDENCE_THRESHOLD ≤ maxScore rn →
      ∀ m, search_for_matches rn m = rn.take 5) ∧
    (maxScore rn < MATCH_CONFIDENCE_THRESHOLD →
      (maxScore rn < maxScore [] →
        search_for_matches rn (some []) = (List.map tagMirrored []).take 5 ∧
        ∀ r ∈ search_for_matches rn (some []), r.is_mirrored = true) ∧
      (maxScore [] ≤ maxScore rn →
        search_for_matches rn (some []) = rn.take 5)) ∧
    (∀ m, (search_for_matches rn m).length ≤ 5) :=
  c1_mirror_fallback _ [] (by simp [SortedDesc]) (by simp [SortedDesc])

/-- C10: below the threshold, a mirrored pass whose best score merely
*equals* the normal pass's best score loses — the normal results are
returned and none of them carries the `is_mirrored` flag; likewise when
the query image cannot be re-read for mirroring, the normal results are
returned. -/
theorem c10_tie_prefers_normal (rn rm : List SResult)
    (hrn : SortedDesc rn) (hrm : SortedDesc rm)
    (hplain : ∀ r ∈ rn, r.is_mirrored = false)
    (hlow : maxScore rn < MATCH_CONFIDENCE_THRESHOLD)
    (heq : maxScore rm = maxScore rn) :
    search_for_matches rn (some rm) = rn.take 5 ∧
    (∀ r ∈ search_for_matches rn (some rm), r.is_mirrored = false) ∧
    search_for_matches rn none = rn.take 5 := by
  have en := bestScore_eq_maxScore rn hrn
  have em := bestScore_eq_maxScore rm hrm
  have hmain : search_for_matches rn (some rm) = rn.take 5 := by
    simp [search_for_matches, en, em, Nat.not_le.mpr hlow, heq]
  refine ⟨hmain, fun r hr => ?_, ?_⟩
  · rw [hmain] at hr
    exact hplain r (List.mem_of_mem_take hr)
  · simp [search_for_matches, en, Nat.not_le.mpr hlow]

/-- C10 witness: a tie at score 3 (and an unreadable mirror image) both
return the untagged normal results. -/
theorem c10_tie_prefers_normal_witness :
    let rn : List SResult := [{ filename := "a", file_path := "p", site_id := "T1",
                                location := "L", distance := 1, spatial_score := some 3 }]
    let rm : List SResult := [{ filename := "b", file_path := "q", site_id := "T2",
                                location := "L", distance := 2, spatial_score := some 3 }]
    search_for_matches rn (some rm) = rn.take 5 ∧
    (∀ r ∈ search_for_matches rn (some rm), r.is_mirrored = false) ∧
    search_for_matches rn none = rn.take 5 :=
  c10_tie_prefers_normal _ _ (by simp [SortedDesc]) (by simp [SortedDesc])
    (by decide) (by decide) (by decide)

/-- C6: a candidate whose ratio test left fewer than 4 good matches never
invokes homography estimation and gets spatial score exactly 0, while
staying in the re-ranked result list; the re-ranked list is sorted by
spatial score in descending order. -/
theorem c6_homography_guard (info : SResult → CandInfo) (initial : List SResult)
    (r : SResult) (nGood : ℕ) (mask : Option (List Bool))
    (hr : r ∈ initial) (hinfo : info r = .matched nGood mask) (hn : nGood < 4) :
    candidateScoreRun nGood mask = (0, false) ∧
    setScore r 0 ∈ rerank_results_with_spatial_verification info true initial ∧
    SortedDesc (rerank_results_with_spatial_verification info true initial) := by
  have hscore : candidateScoreRun nGood mask = (0, false) := by
    simp [candidateScoreRun, Nat.not_le.mpr hn]
  have hne : initial.isEmpty = false := by
    simp [List.isEmpty_eq_false]
    exact List.ne_nil_of_mem hr
  have hre : rerank_results_with_spatial_verification info true initial
      = (initial.filterMap (applyInfo info)).mergeSort scoreLe := by
    simp [rerank_results_with_spatial_verification, hne]
  refine ⟨hscore, ?_, ?_⟩
  · rw [hre, List.mem_mergeSort, List.mem_filterMap]
    exact ⟨r, hr, by simp [applyInfo, hinfo, hscore]⟩
  · rw [hre]
    have := @List.sorted_mergeSort SResult scoreLe
      (fun a b c hab hbc => by
        simp only [scoreLe, decide_eq_true_eq] at *; omega)
      (fun a b => by
        simp only [scoreLe, Bool.or_eq_true, decide_eq_true_eq]; omega)
      (initial.filterMap (applyInfo info))
    exact this.imp fun h => by
      simp only [scoreLe, decide_eq_true_eq] at h; exact h

/-- C6 witness: one candidate with 3 good matches (and a would-be mask of
5 inliers) scores 0, stays in the list, and the list is sorted. -/
theorem c6_homography_guard_witness :
    let r : SResult := { filename := "a", file_path := "p", site_id := "T1",
                         location := "L", distance := 1 }
    let info : SResult → CandInfo := fun _ => .matched 3 (some [true, true, true, true, true])
    candidateScoreRun 3 (some [true, true, true, true, true]) = (0, false) ∧
    setScore r 0 ∈ rerank_results_with_spatial_verification info true [r] ∧
    SortedDesc (rerank_results_with_spatial_verification info true [r]) :=
  c6_homography_guard _ [_] _ 3 _ (by decide) rfl (by decide)

/-- C8: when the loaded vocabulary is absent or unfitted (no
`cluster_centers_`, or centers of total size 0), or the loaded index
holds zero vectors, `smart_search` returns the empty result list
immediately — no exception, no feature extraction, no nearest-neighbour
search (both instrumentation flags stay `false`). -/
theorem c8_empty_on_bad_resources (vocab : Option KM) (index : Option FaissIndex)
    (metadata : List Meta) (encoded : Option (List ℚ))
    (location_filter : Option String) (k_results : ℕ)
    (h : vocab = none ∨
         (∃ km, vocab = some km ∧ km.cluster_centers_ = none) ∨
         (∃ km cs, vocab = some km ∧ km.cluster_centers_ = some cs ∧
            (cs.map List.length).sum = 0) ∨
         (∃ idx, index = some idx ∧ idx.ntotal = 0)) :
    smart_searchRun vocab index metadata encoded location_filter k_results
      = ([], false, false) := by
  rcases h with rfl | ⟨km, rfl, hc⟩ | ⟨km, cs, rfl, hc, hz⟩ | ⟨idx, rfl, hz⟩
  · cases index <;> rfl
  · cases index with
    | none => rfl
    | some idx => simp [smart_searchRun, hc]
  · cases index with
    | none => rfl
    | some idx => simp [smart_searchRun, hc, hz]
  · cases vocab with
    | none => rfl
    | some km =>
      cases hcc : km.cluster_centers_ with
      | none => simp [smart_searchRun, hcc]
      | some cs =>
        by_cases hs : (cs.map List.length).sum = 0 <;>
          simp [smart_searchRun, hcc, hs, hz]

/-- C8 witness: an unfitted vocabulary paired with a live index yields the
empty result with both flags down. -/
theorem c8_empty_on_bad_resources_witness :
    smart_searchRun (some ⟨none⟩)
      (some { ntotal := 3, searchFn := fun _ _ => [] }) [] (some [1]) none 20
      = ([], false, false) :=
  c8_empty_on_bad_resources _ _ _ _ _ _ (Or.inr (Or.inl ⟨⟨none⟩, rfl, rfl⟩))

/-! ## Filter-fallback lemmas (C7) -/

theorem getD_mem_of_lt (md : List Meta) (n : ℕ) (h : n < md.length) :
    md.getD n default ∈ md := by
  rw [List.getD_eq_getElem?_getD, List.getElem?_eq_getElem h, Option.getD_some]
  exact List.getElem_mem h

/-- `searchLoop` depends on the filter only through `passesFilter`. -/
theorem searchLoop_congr_filter (md : List Meta) (lf₁ lf₂ : Option String) (k : ℕ)
    (hits : List Hit)
    (hpf : ∀ m ∈ md, passesFilter lf₁ m = passesFilter lf₂ m) :
    ∀ seen acc, searchLoop md lf₁ k hits seen acc = searchLoop md lf₂ k hits seen acc := by
  induction hits with
  | nil => intro seen acc; rfl
  | cons h rest ih =>
    intro seen acc
    simp only [searchLoop]
    by_cases hv : (h.idx < 0 || (md.length : ℤ) ≤ h.idx : Bool)
    · simp only [hv, if_true, ih]
    · have hb : (h.idx < 0 || (md.length : ℤ) ≤ h.idx : Bool) = false := by
        simpa using hv
      have hlt : h.idx.toNat < md.length := by
        simp only [Bool.or_eq_false_iff, decide_eq_false_iff_not, Int.not_lt,
          Int.not_le] at hb
        omega
      have hm : md.getD h.idx.toNat default ∈ md := getD_mem_of_lt md _ hlt
      simp only [hb, if_false, Bool.false_eq_true, hpf _ hm, ih]

@[simp] theorem lfActive_none : lfActive none = false := rfl

@[simp] theorem passesFilter_none (m : Meta) : passesFilter none m = true := rfl

/-- `smart_searchRun` with both resources present, unfolded one level. -/
theorem smart_searchRun_some (km : KM) (idx : FaissIndex) (md : List Meta)
    (encoded : Option (List ℚ)) (lf : Option String) (k : ℕ) :
    smart_searchRun (some km) (some idx) md encoded lf k =
      match km.cluster_centers_ with
      | none => ([], false, false)
      | some centers =>
        if (centers.map List.length).sum = 0 then ([], false, false)
        else if idx.ntotal = 0 then ([], false, false)
        else
          match encoded with
          | none => ([], true, false)
          | some qv =>
            (searchLoop md lf k
              (idx.searchFn qv (if lfActive lf then k * 10 else k * 5)) [] [],
             true, true) := rfl

/-- A falsy filter (`None` or the empty string) behaves as no filter. -/
theorem smart_search_inactive (vocab : Option KM) (index : Option FaissIndex)
    (md : List Meta) (encoded : Option (List ℚ)) (lf : Option String) (k : ℕ)
    (hlf : lfActive lf = false) :
    smart_search vocab index md encoded lf k = smart_search vocab index md encoded none k := by
  unfold smart_search
  cases vocab with
  | none => cases index <;> rfl
  | some km =>
    cases index with
    | none => rfl
    | some idx =>
      rw [smart_searchRun_some, smart_searchRun_some]
      cases hcc : km.cluster_centers_ with
      | none => rfl
      | some cs =>
        by_cases hs : (cs.map List.length).sum = 0
        · simp [hs]
        · by_cases hnt : idx.ntotal = 0
          · simp [hs, hnt]
          · cases encoded with
            | none => simp [hs, hnt]
            | some qv =>
              have hcong := searchLoop_congr_filter md lf none k
                (idx.searchFn qv (k * 5))
                (fun m _ => by simp [passesFilter, hlf]) [] []
              simp [hs, hnt, hlf, hcong]

/-- When every metadata row fails the filter, the loop collects nothing. -/
theorem searchLoop_all_filtered (md : List Meta) (lf : Option String) (k : ℕ)
    (hits : List Hit) (hpf : ∀ m ∈ md, passesFilter lf m = false) :
    ∀ seen acc, searchLoop md lf k hits seen acc = acc := by
  induction hits with
  | nil => intro seen acc; rfl
  | cons h rest ih =>
    intro seen acc
    simp only [searchLoop]
    by_cases hv : (h.idx < 0 || (md.length : ℤ) ≤ h.idx : Bool)
    · simp only [hv, if_true, ih]
    · have hb : (h.idx < 0 || (md.length : ℤ) ≤ h.idx : Bool) = false := by
        simpa using hv
      have hlt : h.idx.toNat < md.length := by
        simp only [Bool.or_eq_false_iff, decide_eq_false_iff_not, Int.not_lt,
          Int.not_le] at hb
        omega
      have hm := getD_mem_of_lt md h.idx.toNat hlt
      simp only [hb, if_false, Bool.false_eq_true, hpf _ hm, Bool.not_false, if_true, ih]

/-- A truthy filter that matches no metadata row makes `smart_search`
return the empty list. -/
theorem smart_search_filtered_empty (vocab : Option KM) (index : Option FaissIndex)
    (md : List Meta) (encoded : Option (List ℚ)) (X : String) (k : ℕ)
    (hX : ∀ m ∈ md, m.location ≠ X ∧ m.state ≠ X) (hne : X ≠ "") :
    smart_search vocab index md encoded (some X) k = [] := by
  have hpf : ∀ m ∈ md, passesFilter (some X) m = false := by
    intro m hm
    have := hX m hm
    simp [passesFilter, lfActive, hne, this.1, this.2]
  unfold smart_search
  cases vocab with
  | none => cases index <;> rfl
  | some km =>
    cases index with
    | none => rfl
    | some idx =>
      rw [smart_searchRun_some]
      cases hcc : km.cluster_centers_ with
      | none => rfl
      | some cs =>
        by_cases hs : (cs.map List.length).sum = 0
        · simp [hs]
        · by_cases hnt : idx.ntotal = 0
          · simp [hs, hnt]
          · cases encoded with
            | none => simp [hs, hnt]
            | some qv =>
              simp only [hs, hnt, if_false, ite_false]
              simpa using searchLoop_all_filtered md (some X) k _ hpf [] []

/-- C7: a location filter that matches no reference entry's location or
state yields the same candidate set as searching with no filter, because
the filtered pass is empty and an unfiltered retry with the same
parameters is performed. -/
theorem c7_filter_fallback (vocab : Option KM) (index : Option FaissIndex)
    (metadata : List Meta) (encoded : Option (List ℚ)) (X : String)
    (hX : ∀ m ∈ metadata, m.location ≠ X ∧ m.state ≠ X) :
    searchPass (fun lf => smart_search vocab index metadata encoded lf 20) (some X)
      = searchPass (fun lf => smart_search vocab index metadata encoded lf 20) none := by
  by_cases hne : X = ""
  · subst hne
    have heq := smart_search_inactive vocab index metadata encoded (some "") 20 rfl
    simp [searchPass, lfActive, heq]
  · have hempty := smart_search_filtered_empty vocab index metadata encoded X 20 hX hne
    simp [searchPass, lfActive, hne, hempty]

/-- C7 witness: filtering by a location (`"C"`) that no entry carries
falls back to the unfiltered candidate set. -/
theorem c7_filter_fallback_witness :
    let md : List Meta := [{ filename := "f", file_path := "p", site_id := "T1",
                             location := "A", state := "B" }]
    searchPass (fun lf => smart_search none none md none lf 20) (some "C")
      = searchPass (fun lf => smart_search none none md none lf 20) none :=
  c7_filter_fallback none none _ none "C" (by decide)

/-! ## Dedup / best-occurrence lemmas (C5) -/

/-- A FAISS hit that the loop can accept as a result for site `s`: its
row index is in range, the row passes the location filter, and the row's
`site_id` is `s`. -/
def hitCond (md : List Meta) (lf : Option String) (h : Hit) (s : String) : Prop :=
  (0 ≤ h.idx ∧ h.idx < (md.length : ℤ)) ∧
  passesFilter lf (md.getD h.idx.toNat default) = true ∧
  (md.getD h.idx.toNat default).site_id = s

@[simp] theorem newRes_site (md : List Meta) (h : Hit) :
    (newRes md h).site_id = (md.getD h.idx.toNat default).site_id := rfl

@[simp] theorem newRes_dist (md : List Meta) (h : Hit) :
    (newRes md h).distance = h.dist := rfl

/-- Loop invariant of `searchLoop`: starting from a `seen` set that is
exactly the accumulated `site_id`s, with no duplicate sites accumulated
and every accumulated result at least as close as any remaining matching
hit, the loop's output has pairwise-distinct sites, every output result
is either inherited or has an unseen site, and every output result is at
least as close as any matching hit of the processed list. -/
theorem searchLoop_invariant (md : List Meta) (lf : Option String) (k : ℕ)
    (hits : List Hit) : ∀ (seen : List String) (acc : List SResult),
    hits.Pairwise (fun a b => a.dist ≤ b.dist) →
    (∀ s, s ∈ seen ↔ s ∈ acc.map SResult.site_id) →
    (acc.map SResult.site_id).Nodup →
    (∀ r ∈ acc, ∀ h ∈ hits, hitCond md lf h r.site_id → r.distance ≤ h.dist) →
    ((searchLoop md lf k hits seen acc).map SResult.site_id).Nodup ∧
    (∀ r ∈ searchLoop md lf k hits seen acc, r ∈ acc ∨ r.site_id ∉ seen) ∧
    (∀ r ∈ searchLoop md lf k hits seen acc, ∀ h ∈ hits,
      hitCond md lf h r.site_id → r.distance ≤ h.dist) := by
  induction hits with
  | nil =>
    intro seen acc _ _ hN _
    simp only [searchLoop]
    exact ⟨hN, fun r hr => Or.inl hr,
      fun r _ h hh _ => absurd hh (List.not_mem_nil h)⟩
  | cons h rest ih =>
    intro seen acc hsort hSeen hN hA
    have hp := List.pairwise_cons.mp hsort
    have hd : ∀ h' ∈ rest, h.dist ≤ h'.dist := hp.1
    have hsort' := hp.2
    have hAr : ∀ r ∈ acc, ∀ h' ∈ rest, hitCond md lf h' r.site_id → r.distance ≤ h'.dist :=
      fun r hr h' hh' hc => hA r hr h' (List.mem_cons_of_mem _ hh') hc
    simp only [searchLoop]
    split_ifs with h1 h2 h3 h4 h5
    · -- index out of range: continue
      obtain ⟨g1, g2, g3⟩ := ih seen acc hsort' hSeen hN hAr
      refine ⟨g1, g2, fun r hr h' hh' hc => ?_⟩
      rcases List.mem_cons.mp hh' with rfl | hh'
      · exfalso
        obtain ⟨⟨hge, hlt⟩, -, -⟩ := hc
        simp only [Bool.or_eq_true, decide_eq_true_eq] at h1
        rcases h1 with h1 | h1 <;> omega
      · exact g3 r hr h' hh' hc
    · -- filtered out: continue
      obtain ⟨g1, g2, g3⟩ := ih seen acc hsort' hSeen hN hAr
      refine ⟨g1, g2, fun r hr h' hh' hc => ?_⟩
      rcases List.mem_cons.mp hh' with rfl | hh'
      · exfalso
        obtain ⟨-, hpass, -⟩ := hc
        simp only [Bool.not_eq_true'] at h2
        rw [hpass] at h2
        cases h2
      · exact g3 r hr h' hh' hc
    · -- duplicate site, enough results: break
      exact ⟨hN, fun r hr => Or.inl hr, fun r hr h' hh' hc => hA r hr h' hh' hc⟩
    · -- duplicate site: proceed
      obtain ⟨g1, g2, g3⟩ := ih seen acc hsort' hSeen hN hAr
      refine ⟨g1, g2, fun r hr h' hh' hc => ?_⟩
      rcases List.mem_cons.mp hh' with rfl | hh'
      · rcases g2 r hr with hracc | hnot
        · exact hA r hracc _ (List.mem_cons_self _ _) hc
        · exact absurd (hc.2.2 ▸ h3) hnot
      · exact g3 r hr h' hh' hc
    · -- new site accepted, enough results: break
      have hsite_not : (md.getD h.idx.toNat default).site_id ∉ acc.map SResult.site_id :=
        fun hmem => h3 ((hSeen _).mpr hmem)
      refine ⟨?_, ?_, ?_⟩
      · rw [List.map_append, List.nodup_append]
        refine ⟨hN, by simp, ?_⟩
        intro a ha hb
        simp only [List.map_cons, List.map_nil, List.mem_singleton, newRes_site] at hb
        subst hb
        exact hsite_not ha
      · intro r hr
        rcases List.mem_append.mp hr with hracc | hrnew
        · exact Or.inl hracc
        · rw [List.mem_singleton] at hrnew
          subst hrnew
          right
          simpa using h3
      · intro r hr h' hh' hc
        rcases List.mem_append.mp hr with hracc | hrnew
        · exact hA r hracc h' hh' hc
        · rw [List.mem_singleton] at hrnew
          subst hrnew
          rcases List.mem_cons.mp hh' with rfl | hh'
          · simp
          · simpa using hd h' hh'
    · -- new site accepted: proceed
      have hsite_not : (md.getD h.idx.toNat default).site_id ∉ acc.map SResult.site_id :=
        fun hmem => h3 ((hSeen _).mpr hmem)
      have hSeen' : ∀ x, x ∈ (md.getD h.idx.toNat default).site_id :: seen ↔
          x ∈ (acc ++ [newRes md h]).map SResult.site_id := by
        intro x
        rw [List.mem_cons, hSeen x, List.map_append]
        simp [or_comm]
      have hN' : ((acc ++ [newRes md h]).map SResult.site_id).Nodup := by
        rw [List.map_append, List.nodup_append]
        refine ⟨hN, by simp, ?_⟩
        intro a ha hb
        simp only [List.map_cons, List.map_nil, List.mem_singleton, newRes_site] at hb
        subst hb
        exact hsite_not ha
      have hA' : ∀ r ∈ acc ++ [newRes md h], ∀ h' ∈ rest,
          hitCond md lf h' r.site_id → r.distance ≤ h'.dist := by
        intro r hr h' hh' hc
        rcases List.mem_append.mp hr with hracc | hrnew
        · exact hAr r hracc h' hh' hc
        · rw [List.mem_singleton] at hrnew
          subst hrnew
          simpa using hd h' hh'
      obtain ⟨g1, g2, g3⟩ := ih _ _ hsort' hSeen' hN' hA'
      refine ⟨g1, ?_, ?_⟩
      · intro r hr
        rcases g2 r hr with hr' | hnot
        · rcases List.mem_append.mp hr' with hracc | hrnew
          · exact Or.inl hracc
          · rw [List.mem_singleton] at hrnew
            subst hrnew
            right
            simpa using h3
        · right
          exact fun hx => hnot (List.mem_cons_of_mem _ hx)
      · intro r hr h' hh' hc
        rcases List.mem_cons.mp hh' with rfl | hh'
        · rcases g2 r hr with hr' | hnot
          · rcases List.mem_append.mp hr' with hracc | hrnew
            · exact hA r hracc _ (List.mem_cons_self _ _) hc
            · rw [List.mem_singleton] at hrnew
              subst hrnew
              simp
          · exact absurd (by rw [← hc.2.2]; exact List.mem_cons_self _ _) hnot
        · exact g3 r hr h' hh' hc

/-- The re-rank step never changes a candidate's `site_id`. -/
theorem applyInfo_site (info : SResult → CandInfo) (r r' : SResult)
    (h : applyInfo info r = some r') : r'.site_id = r.site_id := by
  unfold applyInfo at h
  split at h
  · exact Option.noConfusion h
  · exact Option.noConfusion h
  · exact Option.noConfusion h
  · injection h with h'
    subst h'
    rfl
  · injection h with h'
    subst h'
    rfl

/-- The sites of the re-rank's kept candidates form a sublist of the
input's sites. -/
theorem map_site_filterMap_sublist (info : SResult → CandInfo) (l : List SResult) :
    ((l.filterMap (applyInfo info)).map SResult.site_id).Sublist
      (l.map SResult.site_id) := by
  induction l with
  | nil => simp
  | cons x t ih =>
    cases hx : applyInfo info x with
    | none =>
      rw [List.filterMap_cons, hx, List.map_cons]
      exact ih.cons _
    | some y =>
      rw [List.filterMap_cons, hx, List.map_cons, List.map_cons,
        applyInfo_site info x y hx]
      exact ih.cons₂ _

/-- Re-ranking preserves at-most-one-result-per-site. -/
theorem rerank_nodup (info : SResult → CandInfo) (queryOk : Bool) (l : List SResult)
    (h : (l.map SResult.site_id).Nodup) :
    ((rerank_results_with_spatial_verification info queryOk l).map
        SResult.site_id).Nodup := by
  unfold rerank_results_with_spatial_verification
  split
  · simp
  · split
    · exact h
    · have hperm : ((l.filterMap (applyInfo info)).mergeSort scoreLe).Perm
          (l.filterMap (applyInfo info)) := List.mergeSort_perm _ _
      have hsub := (map_site_filterMap_sublist info l).nodup h
      exact ((hperm.map SResult.site_id).nodup_iff).mpr hsub

/-- C5: `smart_search` returns at most one result per `site_id` (and the
re-ranked list keeps that invariant), and — FAISS returning its hits in
ascending distance order — the surviving result for a turtle carries the
smallest distance among all in-range, filter-passing hits of that
turtle. -/
theorem c5_dedup_keeps_best (km : KM) (idx : FaissIndex) (metadata : List Meta)
    (encoded : Option (List ℚ)) (lf : Option String) (k : ℕ)
    (hfaiss : ∀ q n, (idx.searchFn q n).Pairwise (fun a b => a.dist ≤ b.dist)) :
    ((smart_search (some km) (some idx) metadata encoded lf k).map
        SResult.site_id).Nodup ∧
    (∀ info queryOk,
      ((rerank_results_with_spatial_verification info queryOk
          (smart_search (some km) (some idx) metadata encoded lf k)).map
          SResult.site_id).Nodup) ∧
    (∀ qv, encoded = some qv →
      ∀ h ∈ idx.searchFn qv (if lfActive lf then k * 10 else k * 5),
        hitCond metadata lf h ((metadata.getD h.idx.toNat default).site_id) →
        ∀ r ∈ smart_search (some km) (some idx) metadata encoded lf k,
          r.site_id = (metadata.getD h.idx.toNat default).site_id →
          r.distance ≤ h.dist) := by
  have hnil : ∀ (hres : smart_search (some km) (some idx) metadata encoded lf k = []),
      ((smart_search (some km) (some idx) metadata encoded lf k).map
          SResult.site_id).Nodup ∧
      (∀ info queryOk,
        ((rerank_results_with_spatial_verification info queryOk
            (smart_search (some km) (some idx) metadata encoded lf k)).map
            SResult.site_id).Nodup) ∧
      (∀ qv, encoded = some qv →
        ∀ h ∈ idx.searchFn qv (if lfActive lf then k * 10 else k * 5),
          hitCond metadata lf h ((metadata.getD h.idx.toNat default).site_id) →
          ∀ r ∈ smart_search (some km) (some idx) metadata encoded lf k,
            r.site_id = (metadata.getD h.idx.toNat default).site_id →
            r.distance ≤ h.dist) := by
    intro hres
    rw [hres]
    refine ⟨by simp, fun info queryOk => rerank_nodup info queryOk [] (by simp), ?_⟩
    intro qv _ h _ _ r hr
    exact absurd hr (List.not_mem_nil r)
  cases hcc : km.cluster_centers_ with
  | none =>
    exact hnil (by simp [smart_search, smart_searchRun_some, hcc])
  | some cs =>
    by_cases hs : (cs.map List.length).sum = 0
    · exact hnil (by simp [smart_search, smart_searchRun_some, hcc, hs])
    · by_cases hnt : idx.ntotal = 0
      · exact hnil (by simp [smart_search, smart_searchRun_some, hcc, hs, hnt])
      · cases encoded with
        | none =>
          exact hnil (by simp [smart_search, smart_searchRun_some, hcc, hs, hnt])
        | some qv =>
          have hres : smart_search (some km) (some idx) metadata (some qv) lf k
              = searchLoop metadata lf k
                  (idx.searchFn qv (if lfActive lf then k * 10 else k * 5)) [] [] := by
            simp [smart_search, smart_searchRun_some, hcc, hs, hnt]
          obtain ⟨g1, g2, g3⟩ := searchLoop_invariant metadata lf k
            (idx.searchFn qv (if lfActive lf then k * 10 else k * 5)) [] []
            (hfaiss qv _) (by simp) (by simp) (by simp)
          rw [hres]
          refine ⟨g1, fun info queryOk => rerank_nodup info queryOk _ g1, ?_⟩
          intro qv' hqv h hh hc r hr hsite
          obtain rfl : qv = qv' := by injection hqv
          exact g3 r hr h hh (by rw [hsite]; exact hc)

/-- C5 witness: with one metadata row and two hits on the same turtle,
the returned results are per-site unique (trivially, on a concrete
instance the theorem's hypotheses hold and its conclusions follow). -/
theorem c5_dedup_keeps_best_witness :
    let md : List Meta := [{ filename := "f", file_path := "p", site_id := "T1",
                             location := "A", state := "B" }]
    let idx : FaissIndex := { ntotal := 1, searchFn := fun _ _ => [⟨1, 0⟩, ⟨2, 0⟩] }
    ((smart_search (some ⟨some [[0]]⟩) (some idx) md (some [0]) none 20).map
        SResult.site_id).Nodup ∧
    (∀ info queryOk,
      ((rerank_results_with_spatial_verification info queryOk
          (smart_search (some ⟨some [[0]]⟩) (some idx) md (some [0]) none 20)).map
          SResult.site_id).Nodup) ∧
    (∀ qv, (some [0] : Option (List ℚ)) = some qv →
      ∀ h ∈ idx.searchFn qv (if lfActive none then 20 * 10 else 20 * 5),
        hitCond md none h ((md.getD h.idx.toNat default).site_id) →
        ∀ r ∈ smart_search (some ⟨some [[0]]⟩) (some idx) md (some [0]) none 20,
          r.site_id = (md.getD h.idx.toNat default).site_id →
          r.distance ≤ h.dist) :=
  c5_dedup_keeps_best ⟨some [[0]]⟩ _ _ (some [0]) none 20
    (fun q n => by simp [List.pairwise_cons])

/-! ## VLAD norm and length lemmas (C9) -/

theorem getD_mem_general {α : Type} (l : List α) (n : ℕ) (d : α) (h : n < l.length) :
    l.getD n d ∈ l := by
  rw [List.getD_eq_getElem?_getD, List.getElem?_eq_getElem h, Option.getD_some]
  exact List.getElem_mem h

theorem foldl_zip_add_length (dim : ℕ) :
    ∀ (l : List (List ℚ)), (∀ v ∈ l, v.length = dim) →
    ∀ acc : List ℚ, acc.length = dim →
      (l.foldl (fun acc v => acc.zipWith (· + ·) v) acc).length = dim := by
  intro l
  induction l with
  | nil => intro _ acc ha; simpa using ha
  | cons v t ih =>
    intro h acc ha
    simp only [List.foldl_cons]
    refine ih (fun w hw => h w (List.mem_cons_of_mem _ hw)) _ ?_
    rw [List.length_zipWith, ha, h v (List.mem_cons_self _ _)]
    exact Nat.min_self dim

theorem sumVecs_length (dim : ℕ) (l : List (List ℚ)) (h : ∀ v ∈ l, v.length = dim) :
    (sumVecs dim l).length = dim := by
  unfold sumVecs
  exact foldl_zip_add_length dim l h _ (by simp)

theorem vladRow_length (des cs : List (List ℚ)) (D i : ℕ)
    (hd : ∀ d ∈ des, d.length = D) (hc : ∀ c ∈ cs, c.length = D) (hi : i < cs.length) :
    (vladRow des cs D i).length = D := by
  unfold vladRow
  split
  · simp
  · apply sumVecs_length
    intro v hv
    obtain ⟨d, hdmem, rfl⟩ := List.mem_map.mp hv
    have hd' : d.length = D := hd d (List.mem_of_mem_filter hdmem)
    have hcgd : (cs.getD i []).length = D :=
      hc _ (getD_mem_general cs i [] hi)
    rw [vsub, List.length_zipWith, hd', hcgd]
    exact Nat.min_self D

theorem rawVlad_length (des cs : List (List ℚ)) (D : ℕ)
    (hne : des ≠ []) (hd : ∀ d ∈ des, d.length = D) (hc : ∀ c ∈ cs, c.length = D) :
    (rawVlad des cs).length = cs.length * D := by
  have hdim : (des.headD []).length = D := by
    cases des with
    | nil => exact absurd rfl hne
    | cons d t => exact hd d (List.mem_cons_self _ _)
  unfold rawVlad
  rw [hdim, List.length_flatten, List.map_map]
  have : ((List.range cs.length).map (List.length ∘ vladRow des cs D))
      = List.replicate cs.length D := by
    rw [List.eq_replicate_iff]
    refine ⟨by simp, ?_⟩
    intro x hx
    obtain ⟨i, hi, rfl⟩ := List.mem_map.mp hx
    exact vladRow_length des cs D i hd hc (List.mem_range.mp hi)
  rw [this, List.sum_replicate, smul_eq_mul]

theorem sum_sq_nonneg (l : List ℝ) : 0 ≤ (l.map (fun x => x ^ 2)).sum := by
  apply List.sum_nonneg
  intro x hx
  obtain ⟨y, -, rfl⟩ := List.mem_map.mp hx
  exact sq_nonneg y

theorem l2normR_nonneg (l : List ℝ) : 0 ≤ l2normR l := Real.sqrt_nonneg _

theorem sum_sq_map_div (l : List ℝ) (c : ℝ) :
    ((l.map (fun x => (x / c) ^ 2)).sum) = ((l.map (fun x => x ^ 2)).sum) / c ^ 2 := by
  induction l with
  | nil => simp
  | cons x t ih =>
    simp only [List.map_cons, List.sum_cons]
    rw [ih, div_pow, add_div]

theorem l2normR_map_div (u : List ℝ) (c : ℝ) (hc : 0 < c) :
    l2normR (u.map (fun x => x / c)) = l2normR u / c := by
  unfold l2normR
  rw [List.map_map]
  have : ((fun x => x ^ 2) ∘ fun x => x / c) = fun x => (x / c) ^ 2 := rfl
  rw [this, sum_sq_map_div, Real.sqrt_div (sum_sq_nonneg u), Real.sqrt_sq hc.le]

/-- `compute_vlad`, with its let-bindings expanded. -/
theorem compute_vlad_eq (des : List (List ℚ)) (km : KM) :
    compute_vlad des km =
      ((rawVlad des (km.cluster_centers_.getD [])).map ssr).map
        (fun x => x / (l2normR ((rawVlad des (km.cluster_centers_.getD [])).map ssr)
          + 1e-7)) := rfl

/-- C9 (amended): for a non-empty descriptor set and a fitted vocabulary
of `K` centers in dimension `D`, the VLAD descriptor has length `K * D`,
and its L2 norm is exactly `n / (n + 1e-7)` where `n` is the norm after
the signed-square-root transform — hence always at most 1, and close to 1
exactly when `n` is not vanishingly small. -/
theorem c9_vlad_length_and_norm (des : List (List ℚ)) (kmeans : KM)
    (cs : List (List ℚ)) (D : ℕ)
    (hcs : kmeans.cluster_centers_ = some cs)
    (hne : des ≠ [])
    (hd : ∀ d ∈ des, d.length = D)
    (hc : ∀ c ∈ cs, c.length = D) :
    (compute_vlad des kmeans).length = cs.length * D ∧
    l2normR (compute_vlad des kmeans)
      = l2normR ((rawVlad des cs).map ssr)
        / (l2normR ((rawVlad des cs).map ssr) + 1e-7) ∧
    l2normR (compute_vlad des kmeans) ≤ 1 := by
  have hget : kmeans.cluster_centers_.getD [] = cs := by rw [hcs]; rfl
  have hpos : (0 : ℝ) < l2normR ((rawVlad des cs).map ssr) + 1e-7 := by
    have h1 : (0 : ℝ) < 1e-7 := by norm_num
    have h2 := l2normR_nonneg ((rawVlad des cs).map ssr)
    linarith
  refine ⟨?_, ?_, ?_⟩
  · rw [compute_vlad_eq, hget, List.length_map, List.length_map]
    exact rawVlad_length des cs D hne hd hc
  · rw [compute_vlad_eq, hget]
    exact l2normR_map_div _ _ hpos
  · rw [compute_vlad_eq, hget, l2normR_map_div _ _ hpos]
    rw [div_le_one hpos]
    have h1 : (0 : ℝ) < 1e-7 := by norm_num
    linarith

/-- C9 witness: one 1-dimensional descriptor equal to the first of two
centers — the theorem applies with `K = 2`, `D = 1`. -/
theorem c9_vlad_length_and_norm_witness :
    (compute_vlad [[0]] ⟨some [[0], [1]]⟩).length = 2 * 1 ∧
    l2normR (compute_vlad [[0]] ⟨some [[0], [1]]⟩)
      = l2normR ((rawVlad [[0]] [[0], [1]]).map ssr)
        / (l2normR ((rawVlad [[0]] [[0], [1]]).map ssr) + 1e-7) ∧
    l2normR (compute_vlad [[0]] ⟨some [[0], [1]]⟩) ≤ 1 := by
  have h := c9_vlad_length_and_norm [[0]] ⟨some [[0], [1]]⟩ [[0], [1]] 1
    rfl (by decide) (by decide) (by decide)
  simpa using h

/-- C9 counterexample: a non-empty descriptor set whose single descriptor
coincides with a cluster center makes every residual vanish, so the
returned VLAD vector has L2 norm exactly 0 — not 1 within any tolerance
(the claim's "norm equal to 1" fails even though its own exact formula
`n / (n + 1e-7)` is what the code produces, with `n = 0` here). -/
theorem c9_unit_norm_counterexample :
    ([[0]] : List (List ℚ)) ≠ [] ∧
    (⟨some [[0], [1]]⟩ : KM).cluster_centers_ = some [[0], [1]] ∧
    l2normR (compute_vlad [[0]] (⟨some [[0], [1]]⟩ : KM)) = 0 ∧
    ¬ ((1 : ℝ) / 2 ≤ l2normR (compute_vlad [[0]] (⟨some [[0], [1]]⟩ : KM))) := by
  have hpred : predictIdx [[0], [1]] [0] = 0 := by
    norm_num [predictIdx, sqDistQ, argminAux]
  have hraw : rawVlad [[0]] [[0], [1]] = [0, 0] := by
    norm_num [rawVlad, vladRow, sumVecs, vsub, hpred, List.range_succ, List.filter]
  have hssr : (rawVlad [[0]] ([[0], [1]] : List (List ℚ))).map ssr = [0, 0] := by
    rw [hraw]
    have h0 : ssr 0 = 0 := by simp [ssr]
    simp [h0]
  have hcv : compute_vlad [[0]] (⟨some [[0], [1]]⟩ : KM) = [0, 0] := by
    rw [compute_vlad_eq]
    have hget : ((⟨some [[0], [1]]⟩ : KM) : KM).cluster_centers_.getD [] = [[0], [1]] := rfl
    rw [hget, hssr]
    simp
  have hnorm : l2normR (compute_vlad [[0]] (⟨some [[0], [1]]⟩ : KM)) = 0 := by
    rw [hcv]
    simp [l2normR]
  exact ⟨by decide, rfl, hnorm, by rw [hnorm]; norm_num⟩

/-! ## Rebuild lemmas (C2, C3, C4) -/

/-- The vocabulary file after a rebuild is either what it was before, or
the freshly trained (fitted) vocabulary. -/
theorem rebuild_vocabF_cases (disk : Disk) (corpus : List Npz)
    (trainOracle : List (List (List ℚ)) → List (List ℚ))
    (sub10 sub15 : List (List ℚ) → List (List ℚ)) :
    (rebuild_faiss_index_from_folders disk corpus trainOracle sub10 sub15).1.vocabF
      = disk.vocabF ∨
    (rebuild_faiss_index_from_folders disk corpus trainOracle sub10 sub15).1.vocabF
      = FileState.good ⟨some (trainOracle (trainBatches corpus sub10))⟩ := by
  unfold rebuild_faiss_index_from_folders
  cases hl : loadVocab disk.vocabF with
  | some km =>
    by_cases hrows : (buildRows km corpus sub15).isEmpty
    · left; simp [hl, hrows]
    · left; simp [hl, hrows]
  | none =>
    by_cases hb : (trainBatches corpus sub10).isEmpty
    · left; simp [hl, hb]
    · by_cases hrows :
        (buildRows ⟨some (trainOracle (trainBatches corpus sub10))⟩ corpus sub15).isEmpty
      · right; simp [hl, hb, hrows]
      · right; simp [hl, hb, hrows]

/-- C4: when no persisted vocabulary loads and the corpus yields zero
usable descriptor batches, the rebuild leaves the whole artifact set
(vocabulary included) untouched and returns no vocabulary; and in
general, whenever a rebuild changes the vocabulary artifact, the new
artifact is a fitted vocabulary (it has cluster centers). -/
theorem c4_no_unfit_vocab_persisted (disk : Disk) (corpus : List Npz)
    (trainOracle : List (List (List ℚ)) → List (List ℚ))
    (sub10 sub15 : List (List ℚ) → List (List ℚ))
    (hload : loadVocab disk.vocabF = none)
    (hempty : trainBatches corpus sub10 = []) :
    (rebuild_faiss_index_from_folders disk corpus trainOracle sub10 sub15).1 = disk ∧
    (rebuild_faiss_index_from_folders disk corpus trainOracle sub10 sub15).2 = none ∧
    (∀ (d2 : Disk) (c2 : List Npz) t2 s2 s3,
      (rebuild_faiss_index_from_folders d2 c2 t2 s2 s3).1.vocabF ≠ d2.vocabF →
      ∃ cs, (rebuild_faiss_index_from_folders d2 c2 t2 s2 s3).1.vocabF
        = FileState.good ⟨some cs⟩) := by
  refine ⟨?_, ?_, ?_⟩
  · simp [rebuild_faiss_index_from_folders, hload, hempty]
  · simp [rebuild_faiss_index_from_folders, hload, hempty]
  · intro d2 c2 t2 s2 s3 hne
    rcases rebuild_vocabF_cases d2 c2 t2 s2 s3 with h | h
    · exact absurd h hne
    · exact ⟨t2 (trainBatches c2 s2), h⟩

/-- C4 witness: rebuilding over an empty corpus with no prior vocabulary
persists nothing. -/
theorem c4_no_unfit_vocab_persisted_witness :
    let disk : Disk := { vocabF := .absent, indexF := .absent,
                         metaF := .absent, vladF := .absent }
    (rebuild_faiss_index_from_folders disk [] (fun _ => []) id id).1 = disk ∧
    (rebuild_faiss_index_from_folders disk [] (fun _ => []) id id).2 = none ∧
    (∀ (d2 : Disk) (c2 : List Npz) t2 s2 s3,
      (rebuild_faiss_index_from_folders d2 c2 t2 s2 s3).1.vocabF ≠ d2.vocabF →
      ∃ cs, (rebuild_faiss_index_from_folders d2 c2 t2 s2 s3).1.vocabF
        = FileState.good ⟨some cs⟩) :=
  c4_no_unfit_vocab_persisted _ [] (fun _ => []) id id rfl rfl

/-- C3: the metadata list and the vector matrix written by the rebuild's
index-generation loop are parallel arrays — equal length, and entry `i`
of the metadata describes exactly the walked feature file whose (capped)
descriptors produced row `i` of the vector matrix. -/
theorem c3_parallel_alignment (kmeans : KM) (corpus : List Npz)
    (sub15 : List (List ℚ) → List (List ℚ)) :
    ((buildRows kmeans corpus sub15).map Prod.snd).length
      = ((buildRows kmeans corpus sub15).map Prod.fst).length ∧
    ∀ i (_h1 : i < ((buildRows kmeans corpus sub15).map Prod.snd).length)
      (h2 : i < ((buildRows kmeans corpus sub15).map Prod.fst).length),
      ∃ n ∈ corpus, ∃ d tls,
        n.descriptors = some d ∧
        parseMeta n.path_parts = some tls ∧
        ((buildRows kmeans corpus sub15).map Prod.snd)[i] = metaOf n tls ∧
        ((buildRows kmeans corpus sub15).map Prod.fst)[i]
          = compute_vlad (cap15 sub15 d) kmeans := by
  refine ⟨by simp, ?_⟩
  intro i _h1 h2
  have hi : i < (buildRows kmeans corpus sub15).length := by simpa using h2
  have hmem : (buildRows kmeans corpus sub15)[i] ∈ buildRows kmeans corpus sub15 :=
    List.getElem_mem hi
  obtain ⟨n, hn, hF⟩ := List.mem_filterMap.mp hmem
  cases hpm : parseMeta n.path_parts with
  | none => simp [hpm] at hF
  | some tls =>
    cases hdes : n.descriptors with
    | none => simp [hpm, hdes] at hF
    | some d =>
      by_cases hcap : (cap15 sub15 d).isEmpty
      · simp [hpm, hdes, hcap] at hF
      · simp only [hpm, hdes, hcap] at hF
        rw [if_neg (by simp [hcap])] at hF
        refine ⟨n, hn, d, tls, hdes, hpm, ?_, ?_⟩
        · rw [List.getElem_map]
          rw [← (Option.some_injective _ hF)]
        · rw [List.getElem_map]
          rw [← (Option.some_injective _ hF)]

/-- C3 witness: a one-file corpus gives one aligned metadata/vector row. -/
theorem c3_parallel_alignment_witness :
    let n : Npz := { filename := "a.npz",
                     path_parts := ["data", "S", "L", "T1", "ref_data", "a.npz"],
                     descriptors := some [[0]] }
    ((buildRows ⟨some [[0]]⟩ [n] id).map Prod.snd).length
      = ((buildRows ⟨some [[0]]⟩ [n] id).map Prod.fst).length ∧
    ∀ i (_h1 : i < ((buildRows ⟨some [[0]]⟩ [n] id).map Prod.snd).length)
      (h2 : i < ((buildRows ⟨some [[0]]⟩ [n] id).map Prod.fst).length),
      ∃ m ∈ [n], ∃ d tls,
        m.descriptors = some d ∧
        parseMeta m.path_parts = some tls ∧
        ((buildRows ⟨some [[0]]⟩ [n] id).map Prod.snd)[i] = metaOf m tls ∧
        ((buildRows ⟨some [[0]]⟩ [n] id).map Prod.fst)[i]
          = compute_vlad (cap15 id d) ⟨some [[0]]⟩ :=
  c3_parallel_alignment ⟨some [[0]]⟩ _ id

/-! ## Vocabulary reuse on rebuild (C2) -/

/-- A disk state with a previously persisted, fitted vocabulary and no
other artifacts. -/
def diskC2 : Disk :=
  { vocabF := FileState.good ⟨some [[1]]⟩, indexF := FileState.absent,
    metaF := FileState.absent, vladF := FileState.absent }

/-- One reference feature file. -/
def npzC2 : Npz :=
  { filename := "a.npz",
    path_parts := ["data", "S", "L", "T1", "ref_data", "a.npz"],
    descriptors := some [[0]] }

/-- A training oracle whose output differs from the persisted centers. -/
def trainC2 : List (List (List ℚ)) → List (List ℚ) := fun _ => [[2]]

theorem buildRowsC2_ne :
    buildRows ⟨some [[1]]⟩ [npzC2] id ≠ [] := by
  have hpm : parseMeta npzC2.path_parts = some ("T1", "L", "S") := by decide
  have hmem : (compute_vlad (cap15 id [[0]]) ⟨some [[1]]⟩, metaOf npzC2 ("T1", "L", "S"))
      ∈ buildRows ⟨some [[1]]⟩ [npzC2] id := by
    apply List.mem_filterMap.mpr
    refine ⟨npzC2, by simp, ?_⟩
    simp only [hpm]
    have hdes : npzC2.descriptors = some [[0]] := rfl
    simp only [hdes]
    have hcap : (cap15 id [[0]] : List (List ℚ)).isEmpty = false := by decide
    simp [hcap]
  exact List.ne_nil_of_mem hmem

/-- C2 counterexample: with a valid fitted vocabulary already on disk,
the rebuild *reuses* it — the returned vocabulary is the persisted one
(not the freshly trained one, which would differ here), the vocabulary
file is not rewritten, and yet the vector-matrix artifact is freshly
written — contradicting "retrained from scratch, never reused" and "all
four regenerated and written together". -/
theorem c2_vocab_reuse_counterexample :
    (rebuild_faiss_index_from_folders diskC2 [npzC2] trainC2 id id).2
      = some ⟨some [[1]]⟩ ∧
    (rebuild_faiss_index_from_folders diskC2 [npzC2] trainC2 id id).1.vocabF
      = diskC2.vocabF ∧
    (⟨some [[1]]⟩ : KM) ≠ ⟨some (trainC2 (trainBatches [npzC2] id))⟩ ∧
    (rebuild_faiss_index_from_folders diskC2 [npzC2] trainC2 id id).1.vladF
      ≠ diskC2.vladF := by
  have hload : loadVocab (FileState.good ⟨some [[1]]⟩) = some ⟨some [[1]]⟩ := rfl
  refine ⟨?_, ?_, ?_, ?_⟩
  · simp [rebuild_faiss_index_from_folders, diskC2, hload, buildRowsC2_ne]
  · simp [rebuild_faiss_index_from_folders, diskC2, hload, buildRowsC2_ne]
  · intro h
    have hc := congrArg KM.cluster_centers_ h
    simp [trainC2] at hc
  · simp [rebuild_faiss_index_from_folders, diskC2, hload, buildRowsC2_ne]

/-- C2 (amended): the vocabulary is retrained from scratch only when no
valid fitted vocabulary artifact loads from disk; when one loads, it is
reused — its file untouched — while the index, metadata and vector
matrix are regenerated.  When retraining does occur and the corpus has at
least one usable feature file, all four artifacts are regenerated and
written in the same rebuild, the vocabulary being the freshly trained
one. -/
theorem c2_retrain_only_without_valid_vocab (disk : Disk) (corpus : List Npz)
    (trainOracle : List (List (List ℚ)) → List (List ℚ))
    (sub10 sub15 : List (List ℚ) → List (List ℚ)) :
    (∀ km, loadVocab disk.vocabF = some km →
      (rebuild_faiss_index_from_folders disk corpus trainOracle sub10 sub15).1.vocabF
        = disk.vocabF ∧
      (¬ (buildRows km corpus sub15).isEmpty →
        (rebuild_faiss_index_from_folders disk corpus trainOracle sub10 sub15).2
          = some km ∧
        (rebuild_faiss_index_from_folders disk corpus trainOracle sub10 sub15).1.vladF
          = FileState.good ((buildRows km corpus sub15).map Prod.fst) ∧
        (rebuild_faiss_index_from_folders disk corpus trainOracle sub10 sub15).1.metaF
          = FileState.good ((buildRows km corpus sub15).map Prod.snd) ∧
        (rebuild_faiss_index_from_folders disk corpus trainOracle sub10 sub15).1.indexF
          = FileState.good
              (init_faiss_index ((buildRows km corpus sub15).map Prod.fst)))) ∧
    (loadVocab disk.vocabF = none →
      ∀ n ∈ corpus, ∀ d tls,
        n.descriptors = some d → parseMeta n.path_parts = some tls →
        ¬ (cap15 sub15 d).isEmpty →
        (rebuild_faiss_index_from_folders disk corpus trainOracle sub10 sub15).2
          = some ⟨some (trainOracle (trainBatches corpus sub10))⟩ ∧
        (rebuild_faiss_index_from_folders disk corpus trainOracle sub10 sub15).1
          = { vocabF := FileState.good ⟨some (trainOracle (trainBatches corpus sub10))⟩,
              vladF := FileState.good
                ((buildRows ⟨some (trainOracle (trainBatches corpus sub10))⟩
                    corpus sub15).map Prod.fst),
              metaF := FileState.good
                ((buildRows ⟨some (trainOracle (trainBatches corpus sub10))⟩
                    corpus sub15).map Prod.snd),
              indexF := FileState.good (init_faiss_index
                ((buildRows ⟨some (trainOracle (trainBatches corpus sub10))⟩
                    corpus sub15).map Prod.fst)) }) := by
  constructor
  · intro km hkm
    constructor
    · rcases rebuild_vocabF_cases disk corpus trainOracle sub10 sub15 with h | h
      · exact h
      · -- the training path is unreachable when a vocabulary loaded
        unfold rebuild_faiss_index_from_folders at h ⊢
        simp only [hkm] at h ⊢
        by_cases hrows : (buildRows km corpus sub15).isEmpty <;> simp [hrows]
    · intro hrows
      have hrows' : (buildRows km corpus sub15).isEmpty = false := by
        simpa using hrows
      refine ⟨?_, ?_, ?_, ?_⟩ <;>
        simp [rebuild_faiss_index_from_folders, hkm, hrows']
  · intro hl n hn d tls hdes hpm hcap
    have hbmem : (if 10000 < d.length then sub10 d else d) ∈ trainBatches corpus sub10 :=
      List.mem_filterMap.mpr ⟨n, hn, by rw [hdes]⟩
    have hb : (trainBatches corpus sub10).isEmpty = false := by
      rw [List.isEmpty_eq_false]
      exact List.ne_nil_of_mem hbmem
    have hrmem : (compute_vlad (cap15 sub15 d)
          ⟨some (trainOracle (trainBatches corpus sub10))⟩, metaOf n tls)
        ∈ buildRows ⟨some (trainOracle (trainBatches corpus sub10))⟩ corpus sub15 := by
      apply List.mem_filterMap.mpr
      refine ⟨n, hn, ?_⟩
      simp only [hpm, hdes]
      simp [show (cap15 sub15 d).isEmpty = false by simpa using hcap]
    have hrows : (buildRows ⟨some (trainOracle (trainBatches corpus sub10))⟩
        corpus sub15).isEmpty = false := by
      rw [List.isEmpty_eq_false]
      exact List.ne_nil_of_mem hrmem
    constructor <;> simp [rebuild_faiss_index_from_folders, hl, hb, hrows]

/-- C2 witness (for the amended claim): with no prior vocabulary on disk
and one usable feature file, one rebuild writes all four artifacts with
the freshly trained vocabulary. -/
theorem c2_retrain_only_without_valid_vocab_witness :
    let disk : Disk := { vocabF := .absent, indexF := .absent,
                         metaF := .absent, vladF := .absent }
    (∀ km, loadVocab disk.vocabF = some km →
      (rebuild_faiss_index_from_folders disk [npzC2] trainC2 id id).1.vocabF
        = disk.vocabF ∧
      (¬ (buildRows km [npzC2] id).isEmpty →
        (rebuild_faiss_index_from_folders disk [npzC2] trainC2 id id).2 = some km ∧
        (rebuild_faiss_index_from_folders disk [npzC2] trainC2 id id).1.vladF
          = FileState.good ((buildRows km [npzC2] id).map Prod.fst) ∧
        (rebuild_faiss_index_from_folders disk [npzC2] trainC2 id id).1.metaF
          = FileState.good ((buildRows km [npzC2] id).map Prod.snd) ∧
        (rebuild_faiss_index_from_folders disk [npzC2] trainC2 id id).1.indexF
          = FileState.good
              (init_faiss_index ((buildRows km [npzC2] id).map Prod.fst)))) ∧
    (loadVocab disk.vocabF = none →
      ∀ n ∈ [npzC2], ∀ d tls,
        n.descriptors = some d → parseMeta n.path_parts = some tls →
        ¬ (cap15 id d).isEmpty →
        (rebuild_faiss_index_from_folders disk [npzC2] trainC2 id id).2
          = some ⟨some (trainC2 (trainBatches [npzC2] id))⟩ ∧
        (rebuild_faiss_index_from_folders disk [npzC2] trainC2 id id).1
          = { vocabF := FileState.good ⟨some (trainC2 (trainBatches [npzC2] id))⟩,
              vladF := FileState.good
                ((buildRows ⟨some (trainC2 (trainBatches [npzC2] id))⟩
                    [npzC2] id).map Prod.fst),
              metaF := FileState.good
                ((buildRows ⟨some (trainC2 (trainBatches [npzC2] id))⟩
                    [npzC2] id).map Prod.snd),
              indexF := FileState.good (init_faiss_index
                ((buildRows ⟨some (trainC2 (trainBatches [npzC2] id))⟩
                    [npzC2] id).map Prod.fst)) }) :=
  c2_retrain_only_without_valid_vocab _ [npzC2] trainC2 id id

end TurtleTracker
